import Mathlib

/-!
# Verification of the MedReserve real-time chat relay

A shallow embedding of `realtime_chat.py` (class `ConnectionManager` and the
message router `ChatMessageHandler.handle_websocket_message`) together with
proofs about its connection registry, room directory and bounded history log.

Modelling conventions:
* Python dicts become association lists `List (String × α)`; `List.lookup`
  returns the first (and, for states reachable from `initial_manager`, the
  only) binding for a key. Deleting a key filters it out; setting a key
  replaces the binding in place or appends a fresh one, as a dict does.
* Python sets of user ids become duplicate-free `List String`; `set.add` is a
  guarded append, `set.remove` removes the element entirely (a filter).
* The WebSocket transports are abstracted by a predicate
  `fails : String → Bool` saying whose transport raises when written to.
  A handler returns the new manager state together with the list of
  transport events it produced: a successful `websocket.send_text` becomes
  `Event.delivered`, a raised-and-caught send error (which the source logs
  and answers by `self.disconnect(user_id)`) becomes `Event.sendError`.
* `datetime.now()` is threaded in as an uninterpreted string argument `now`; message
  ids are derived from it the way the source derives them from the clock.
-/

/-- Models the decoded JWT identity stored in `self.user_info[user_id]`; the handlers
only ever read `role` and `full_name` via `dict.get`, so both are optional. -/
structure UserInfo where
  role : Option String
  full_name : Option String
deriving DecidableEq

/-- Models the `file_info` dict of a `file_share` event; the handler copies these five
fields with `dict.get` (absent keys become `None`). -/
structure FileInfo where
  name : Option String
  size : Option String
  kind : Option String
  url : Option String
  thumbnail : Option String
deriving DecidableEq

/-- Models the broadcast form of a chat message built in `handle_chat_message`. -/
structure ChatMessage where
  message_type : String
  room_id : String
  sender_id : String
  sender_name : String
  sender_role : String
  content : String
  timestamp : String
  message_id : String
deriving DecidableEq

/-- Models the broadcast form of a file-share message built in `handle_file_share`. -/
structure FileMessage where
  room_id : String
  sender_id : String
  sender_name : String
  sender_role : String
  file_info : FileInfo
  timestamp : String
  message_id : String
deriving DecidableEq

/-- Models the broadcast form of a typing indicator built in `handle_typing_indicator`. -/
structure TypingMessage where
  room_id : String
  user_id : String
  user_name : String
  is_typing : Bool
  timestamp : String
deriving DecidableEq

/-- Models the broadcast form of a message-status update built in `handle_message_status`. -/
structure StatusMessage where
  room_id : String
  message_id : String
  status : String
  user_id : String
  timestamp : String
deriving DecidableEq

/-- Models an entry of `self.message_history[room_id]`: only chat messages and file
shares are ever appended there. -/
inductive HistoryEntry where
  | chat (c : ChatMessage)
  | file (f : FileMessage)
deriving DecidableEq

/-- Models the outbound payloads written to a websocket (`json.dumps(message)` in
`send_personal_message`), one constructor per `type` tag the relay emits. -/
inductive Msg where
  | error (text : String)
  | chat (c : ChatMessage)
  | fileShare (f : FileMessage)
  | typing (t : TypingMessage)
  | status (s : StatusMessage)
  | chatHistory (room_id : String) (messages : List HistoryEntry)
  | connectionConfirmed (user_id : String) (role name : Option String)
  | activeUsers (users : List (String × String × String))
  | pong (timestamp : String)
deriving DecidableEq

/-- Records one observable transport action of a handler: a successful write to a
user's socket, or a raised-and-caught write error (logged by the source,
followed by self-healing `disconnect`). -/
inductive Event where
  | delivered (user_id : String) (msg : Msg)
  | sendError (user_id : String)
deriving DecidableEq

/-- Models the four shared maps of `ConnectionManager`. The websocket values of
`active_connections` are abstracted away (only key membership matters; the
transport behaviour lives in the `fails` predicate), so the registry is its
key list. -/
structure Manager where
  active_connections : List String
  chat_rooms : List (String × List String)
  user_info : List (String × UserInfo)
  message_history : List (String × List HistoryEntry)
deriving DecidableEq

/-- Models `ConnectionManager.__init__`: all four maps start empty. -/
def initial_manager : Manager :=
  { active_connections := []
    chat_rooms := []
    user_info := []
    message_history := [] }

/-- Models a parsed inbound event envelope: each field is read with `dict.get`,
so every field is optional. `kind` is the envelope's `type` tag. -/
structure MessageData where
  kind : Option String
  room_id : Option String
  content : Option String
  is_typing : Option Bool
  file_info : Option FileInfo
  message_id : Option String
  status : Option String
deriving DecidableEq

/-- Models Python `set.add` on a duplicate-free list: append when absent. -/
def set_add (x : String) (s : List String) : List String :=
  if s.contains x then s else s ++ [x]

/-- Models Python `set.remove` / `set.discard`: the element is gone afterwards. -/
def set_remove (x : String) (s : List String) : List String :=
  s.filter (fun y => y ≠ x)

/-- Models Python `del d[k]` (the source always guards it with `k in d`). -/
def erase_key {α : Type} (k : String) (d : List (String × α)) : List (String × α) :=
  d.filter (fun p => p.1 ≠ k)

/-- Models Python `k in d` for a dict. -/
def contains_key {α : Type} (k : String) (d : List (String × α)) : Bool :=
  (d.lookup k).isSome

/-- Models Python `d[k] = v`: replace the binding in place, or append a fresh one. -/
def set_key {α : Type} (k : String) (v : α) (d : List (String × α)) : List (String × α) :=
  if contains_key k d then d.map (fun p => if p.1 = k then (k, v) else p)
  else d ++ [(k, v)]

/-- Models Python code of the shape `d[k] = f(d[k])`, guarded by `k in d` at the call sites; applies
`f` to the value bound to `k`, leaving other keys alone. -/
def map_value {α : Type} (k : String) (f : α → α) (d : List (String × α)) : List (String × α) :=
  d.map (fun p => if p.1 = k then (p.1, f p.2) else p)

/-- Models Python `history[-n:]` for `n > 0`: the last `n` elements. -/
def take_last {α : Type} (n : Nat) (l : List α) : List α :=
  l.drop (l.length - n)

/-- Performs the room sweep of `disconnect`: remove the user from every
participant set that holds them, and drop any room this emptied. -/
def prune_user (user_id : String) (rooms : List (String × List String)) :
    List (String × List String) :=
  rooms.filterMap (fun p =>
    if p.2.contains user_id then
      if set_remove user_id p.2 = [] then none
      else some (p.1, set_remove user_id p.2)
    else some p)

/-- Models `ConnectionManager.disconnect`: drop the registry and user-info bindings
when present, remove the user from every room's participant set, and delete
any room this emptied (a room the user was not in is kept even if already
empty, and `message_history` is never touched). -/
def disconnect (m : Manager) (user_id : String) : Manager :=
  { active_connections :=
      if m.active_connections.contains user_id then m.active_connections.filter (fun y => y ≠ user_id)
      else m.active_connections
    user_info :=
      if contains_key user_id m.user_info then erase_key user_id m.user_info
      else m.user_info
    chat_rooms := prune_user user_id m.chat_rooms
    message_history := m.message_history }

/-- Models `ConnectionManager.send_personal_message`: a no-op for an unregistered
user; otherwise write to the socket, and on a transport error log it and
self-heal with `disconnect`. -/
def send_personal_message (fails : String → Bool) (m : Manager) (msg : Msg)
    (user_id : String) : Manager × List Event :=
  if m.active_connections.contains user_id then
    if fails user_id then (disconnect m user_id, [Event.sendError user_id])
    else (m, [Event.delivered user_id msg])
  else (m, [])

/-- Models the `for user_id in participants:` loop body of `send_room_message`,
threading the (possibly self-healed) manager state through the list. -/
def send_to_each (fails : String → Bool) (msg : Msg) :
    Manager → List String → Manager × List Event
  | m, [] => (m, [])
  | m, u :: us =>
    let r := send_personal_message fails m msg u
    let rest := send_to_each fails msg r.1 us
    (rest.1, r.2 ++ rest.2)

/-- Computes the copy of the participant set minus the excluded user
(`participants.copy()` followed by `participants.discard(exclude_user)`). -/
def room_recipients (participants : List String) (exclude_user : Option String) : List String :=
  match exclude_user with
  | some e => set_remove e participants
  | none => participants

/-- Models `ConnectionManager.send_room_message`: nothing for an unknown room;
otherwise iterate over a copy of the participant set (minus the excluded
user, if any) sending individually. -/
def send_room_message (fails : String → Bool) (m : Manager) (msg : Msg)
    (room_id : String) (exclude_user : Option String) : Manager × List Event :=
  match m.chat_rooms.lookup room_id with
  | none => (m, [])
  | some participants =>
    send_to_each fails msg m (room_recipients participants exclude_user)

/-- Models Python string comparison `a <= b`: lexicographic on Unicode code points. -/
def chars_le : List Char → List Char → Bool
  | [], _ => true
  | _ :: _, [] => false
  | a :: as, b :: bs =>
    if a.toNat < b.toNat then true
    else if b.toNat < a.toNat then false
    else chars_le as bs

/-- Models Python `min` on two strings: the first argument when `a <= b`. -/
def py_min (a b : String) : String := if chars_le a.data b.data then a else b

/-- Models Python `max` on two strings: the second argument when `a <= b`. -/
def py_max (a b : String) : String := if chars_le a.data b.data then b else a

/-- Computes the deterministic two-party room id
`f"chat_{min(doctor_id, patient_id)}_{max(doctor_id, patient_id)}"`. -/
def room_id_for (doctor_id patient_id : String) : String :=
  "chat_" ++ py_min doctor_id patient_id ++ "_" ++ py_max doctor_id patient_id

/-- Models `ConnectionManager.create_chat_room`: create the room and its history
log when absent, then ensure both parties are members; returns the room id. -/
def create_chat_room (m : Manager) (doctor_id patient_id : String) : Manager × String :=
  let room_id := room_id_for doctor_id patient_id
  let m1 :=
    if contains_key room_id m.chat_rooms then m
    else { m with
      chat_rooms := m.chat_rooms ++ [(room_id, [])]
      message_history := m.message_history ++ [(room_id, [])] }
  let m2 := { m1 with chat_rooms := map_value room_id (set_add doctor_id) m1.chat_rooms }
  let m3 := { m2 with chat_rooms := map_value room_id (set_add patient_id) m2.chat_rooms }
  (m3, room_id)

/-- Models `ConnectionManager.join_room`: create the room (with empty history) when
absent, then add the user. -/
def join_room (m : Manager) (user_id room_id : String) : Manager :=
  let m1 :=
    if contains_key room_id m.chat_rooms then m
    else { m with
      chat_rooms := m.chat_rooms ++ [(room_id, [])]
      message_history := m.message_history ++ [(room_id, [])] }
  { m1 with chat_rooms := map_value room_id (set_add user_id) m1.chat_rooms }

/-- Models `ConnectionManager.leave_room`: remove the membership when both the room
and the membership exist; the room entry itself is never deleted. -/
def leave_room (m : Manager) (user_id room_id : String) : Manager :=
  match m.chat_rooms.lookup room_id with
  | none => m
  | some participants =>
    if participants.contains user_id then
      { m with chat_rooms := map_value room_id (set_remove user_id) m.chat_rooms }
    else m

/-- Models `ConnectionManager.connect` after a successful token check: register the
connection and identity, then send the `connection_confirmed` event (whose
delivery may itself fail and self-heal). A failed token check re-raises
without registering, so it leaves the state unchanged. -/
def connect (fails : String → Bool) (m : Manager) (user_id : String)
    (auth : Option UserInfo) : Manager × List Event :=
  match auth with
  | none => (m, [])
  | some info =>
    let m1 := { m with
      active_connections :=
        if m.active_connections.contains user_id then m.active_connections
        else m.active_connections ++ [user_id]
      user_info := set_key user_id info m.user_info }
    send_personal_message fails m1
      (Msg.connectionConfirmed user_id info.role info.full_name) user_id

/-- Builds the chat-message object of `handle_chat_message` (both the history
entry and the fan-out payload). -/
def mk_chat_message (data : MessageData) (sender_id : String) (info : Option UserInfo)
    (room_id now : String) : ChatMessage :=
  { message_type := data.kind.getD "text"
    room_id := room_id
    sender_id := sender_id
    sender_name := (info.bind (fun i => i.full_name)).getD "Unknown"
    sender_role := (info.bind (fun i => i.role)).getD "UNKNOWN"
    content := data.content.getD ""
    timestamp := now
    message_id := "msg_" ++ now }

/-- Appends one chat message to a room history and keeps only the last 100
entries, exactly as lines 169-175 of the source do. -/
def append_trimmed (cm : ChatMessage) (h : List HistoryEntry) : List HistoryEntry :=
  let h1 := h ++ [HistoryEntry.chat cm]
  if h1.length > 100 then take_last 100 h1 else h1

/-- Performs the history mutation of `handle_chat_message`: append and trim,
but only when the room already has a history log. -/
def chat_history_update (m : Manager) (cm : ChatMessage) (room_id : String) : Manager :=
  if contains_key room_id m.message_history then
    { m with message_history := map_value room_id (append_trimmed cm) m.message_history }
  else m

/-- Models `ConnectionManager.handle_chat_message`: reject a missing `room_id` with
an error reply; otherwise build the message, append it to the room's history
log when that log exists (trimming to the last 100 entries), and fan out to
every current member of the room, sender included. -/
def handle_chat_message (fails : String → Bool) (m : Manager) (data : MessageData)
    (sender_id now : String) : Manager × List Event :=
  match data.room_id with
  | none =>
    send_personal_message fails m (Msg.error "Room ID is required for chat messages") sender_id
  | some room_id =>
    let cm := mk_chat_message data sender_id (m.user_info.lookup sender_id) room_id now
    send_room_message fails (chat_history_update m cm room_id) (Msg.chat cm) room_id none

/-- Models `ConnectionManager.handle_typing_indicator`: silently ignore a missing
`room_id`; otherwise fan out to the other members, never logging anything. -/
def handle_typing_indicator (fails : String → Bool) (m : Manager) (data : MessageData)
    (user_id now : String) : Manager × List Event :=
  match data.room_id with
  | none => (m, [])
  | some room_id =>
    let tm : TypingMessage :=
      { room_id := room_id
        user_id := user_id
        user_name := ((m.user_info.lookup user_id).bind (fun i => i.full_name)).getD "Unknown"
        is_typing := data.is_typing.getD false
        timestamp := now }
    send_room_message fails m (Msg.typing tm) room_id (some user_id)

/-- Models `ConnectionManager.get_chat_history`: empty for an unknown room or a
non-member requester; otherwise `history[-limit:] if limit else history`. -/
def get_chat_history (m : Manager) (room_id user_id : String) (limit : Nat) :
    List HistoryEntry :=
  match m.chat_rooms.lookup room_id with
  | none => []
  | some participants =>
    if participants.contains user_id then
      let history := (m.message_history.lookup room_id).getD []
      if limit ≠ 0 then take_last limit history else history
    else []

/-- Builds the file-share object of `handle_file_share`. -/
def mk_file_message (sender_id : String) (info : Option UserInfo)
    (room_id : String) (fi : FileInfo) (now : String) : FileMessage :=
  { room_id := room_id
    sender_id := sender_id
    sender_name := (info.bind (fun i => i.full_name)).getD "Unknown"
    sender_role := (info.bind (fun i => i.role)).getD "UNKNOWN"
    file_info := fi
    timestamp := now
    message_id := "file_" ++ now }

/-- Performs the history mutation of `handle_file_share`: a plain append with
no length trimming (lines 249-251 of the source have no cap check), again
only when the room already has a history log. -/
def file_history_update (m : Manager) (fm : FileMessage) (room_id : String) : Manager :=
  if contains_key room_id m.message_history then
    { m with message_history :=
        map_value room_id (fun h => h ++ [HistoryEntry.file fm]) m.message_history }
  else m

/-- Models `ConnectionManager.handle_file_share`: reject a missing `room_id` or
`file_info` with an error reply; otherwise append to the room's history log
when it exists (with no length trimming) and fan out to all members. -/
def handle_file_share (fails : String → Bool) (m : Manager) (data : MessageData)
    (sender_id now : String) : Manager × List Event :=
  match data.room_id, data.file_info with
  | some room_id, some fi =>
    let fm := mk_file_message sender_id (m.user_info.lookup sender_id) room_id fi now
    send_room_message fails (file_history_update m fm room_id) (Msg.fileShare fm) room_id none
  | _, _ =>
    send_personal_message fails m (Msg.error "Room ID and file info are required") sender_id

/-- Models `ConnectionManager.handle_message_status`: silently do nothing unless
`room_id`, `message_id` and `status` are all present; otherwise fan out to
the other members, never logging anything. -/
def handle_message_status (fails : String → Bool) (m : Manager) (data : MessageData)
    (user_id now : String) : Manager × List Event :=
  match data.room_id, data.message_id, data.status with
  | some room_id, some message_id, some status =>
    let sm : StatusMessage :=
      { room_id := room_id
        message_id := message_id
        status := status
        user_id := user_id
        timestamp := now }
    send_room_message fails m (Msg.status sm) room_id (some user_id)
  | _, _, _ => (m, [])

/-- Models `ConnectionManager.get_active_users`: one `(user_id, name, role)` triple
per `user_info` entry. -/
def get_active_users (m : Manager) : List (String × String × String) :=
  m.user_info.map (fun p => (p.1, p.2.full_name.getD "Unknown", p.2.role.getD "UNKNOWN"))

/-- Models `ChatMessageHandler.handle_websocket_message`: dispatch on the `type`
tag; `join_room` and `leave_room` silently ignore a missing `room_id`, an
unrecognised tag earns an error reply naming it. -/
def handle_websocket_message (fails : String → Bool) (m : Manager) (data : MessageData)
    (user_id now : String) : Manager × List Event :=
  match data.kind with
  | some "chat_message" => handle_chat_message fails m data user_id now
  | some "typing_indicator" => handle_typing_indicator fails m data user_id now
  | some "file_share" => handle_file_share fails m data user_id now
  | some "message_status" => handle_message_status fails m data user_id now
  | some "join_room" =>
    match data.room_id with
    | some room_id =>
      let m1 := join_room m user_id room_id
      let history := get_chat_history m1 room_id user_id 50
      send_personal_message fails m1 (Msg.chatHistory room_id history) user_id
    | none => (m, [])
  | some "leave_room" =>
    match data.room_id with
    | some room_id => (leave_room m user_id room_id, [])
    | none => (m, [])
  | some "get_active_users" =>
    send_personal_message fails m (Msg.activeUsers (get_active_users m)) user_id
  | some "ping" => send_personal_message fails m (Msg.pong now) user_id
  | k =>
    send_personal_message fails m
      (Msg.error ("Unknown message type: " ++ (k.getD "None"))) user_id

/-- Describes the all-transports-healthy environment: no send ever raises. -/
def no_failure : String → Bool := fun _ => false

/-!
## Basic lemmas about the list-level building blocks
-/

theorem contains_iff_mem (l : List String) (a : String) :
    l.contains a = true ↔ a ∈ l := by
  rw [List.contains]
  exact List.elem_iff

theorem mem_set_remove (s : List String) (x v : String) :
    v ∈ set_remove x s ↔ v ∈ s ∧ v ≠ x := by
  simp [set_remove, List.mem_filter]

theorem mem_set_add (s : List String) (x v : String) :
    v ∈ set_add x s ↔ v ∈ s ∨ v = x := by
  unfold set_add
  by_cases h : s.contains x = true
  · rw [contains_iff_mem] at h
    rw [if_pos (by rw [contains_iff_mem]; exact h)]
    constructor
    · exact Or.inl
    · rintro (hv | rfl)
      · exact hv
      · exact h
  · simp only [h, if_false, Bool.false_eq_true]
    simp

theorem lookup_map_value {α : Type} (k : String) (f : α → α) (d : List (String × α)) :
    (map_value k f d).lookup k = (d.lookup k).map f := by
  induction d with
  | nil => simp [map_value]
  | cons p ps ih =>
    obtain ⟨k1, v⟩ := p
    by_cases h : k1 = k
    · subst h
      simp only [map_value, List.map_cons, eq_self_iff_true, if_true]
      simp [List.lookup]
    · have hbeq : (k == k1) = false := by
        simp [beq_iff_eq]
        exact fun hk => h hk.symm
      simp only [map_value, List.map_cons, if_neg h]
      simp only [List.lookup, hbeq]
      exact ih

theorem keys_map_value {α : Type} (k : String) (f : α → α) (d : List (String × α)) :
    (map_value k f d).map Prod.fst = d.map Prod.fst := by
  induction d with
  | nil => rfl
  | cons p ps ih =>
    by_cases h : p.1 = k <;> simp [map_value, h] at ih ⊢ <;> exact ih

theorem take_last_of_le {α : Type} (n : Nat) (l : List α) (h : l.length ≤ n) :
    take_last n l = l := by
  unfold take_last
  rw [Nat.sub_eq_zero_of_le h, List.drop_zero]

theorem length_take_last {α : Type} (n : Nat) (l : List α) :
    (take_last n l).length ≤ n := by
  unfold take_last
  rw [List.length_drop]
  omega

/-!
## C6: order-independence of the two-party room id
-/

theorem chars_le_total : ∀ as bs : List Char, chars_le as bs = true ∨ chars_le bs as = true
  | [], _ => Or.inl rfl
  | _ :: _, [] => Or.inr rfl
  | a :: as, b :: bs => by
    by_cases h1 : a.toNat < b.toNat
    · left
      simp [chars_le, h1]
    · by_cases h2 : b.toNat < a.toNat
      · right
        simp [chars_le, h2]
      · rcases chars_le_total as bs with h | h
        · left
          simp [chars_le, h1, h2, h]
        · right
          simp [chars_le, h1, h2, h]

theorem chars_le_antisymm : ∀ as bs : List Char,
    chars_le as bs = true → chars_le bs as = true → as = bs
  | [], [], _, _ => rfl
  | [], _ :: _, _, h2 => by simp [chars_le] at h2
  | _ :: _, [], h1, _ => by simp [chars_le] at h1
  | a :: as, b :: bs, h1, h2 => by
    by_cases hab : a.toNat < b.toNat
    · have hba : ¬ b.toNat < a.toNat := by omega
      simp [chars_le, hba, hab] at h2
    · by_cases hba : b.toNat < a.toNat
      · simp [chars_le, hab, hba] at h1
      · have hchar : a = b := by
          apply Char.ext
          apply UInt32.ext
          simp only [Char.toNat] at hab hba
          omega
        have h1t : chars_le as bs = true := by
          simpa [chars_le, hab, hba] using h1
        have h2t : chars_le bs as = true := by
          simpa [chars_le, hab, hba] using h2
        rw [hchar, chars_le_antisymm as bs h1t h2t]

theorem string_eq_of_chars_le (a b : String)
    (h1 : chars_le a.data b.data = true) (h2 : chars_le b.data a.data = true) : a = b :=
  String.ext (chars_le_antisymm _ _ h1 h2)

/-- Lists the two ids in Python sorted order. -/
def sort2 (a b : String) : List String :=
  if chars_le a.data b.data then [a, b] else [b, a]

/-- Concatenates a sorted two-element list the way the room id is assembled. -/
def chat_tag_join : List String → String
  | [x, y] => "chat_" ++ x ++ "_" ++ y
  | l => "chat_" ++ String.join l

/-- C6: the room id is symmetric in its two arguments, and it equals the
concatenation (with the fixed tag and separator) of the two ids listed in
sorted order: `sort2` really sorts, being a pairwise-ordered permutation
of the input pair. -/
theorem room_id_for_symm_eq_sorted_concat (a b : String) :
    room_id_for a b = room_id_for b a ∧
    room_id_for a b = chat_tag_join (sort2 a b) ∧
    (sort2 a b).Perm [a, b] ∧
    (sort2 a b).Pairwise (fun x y => chars_le x.data y.data = true) := by
  by_cases h : chars_le a.data b.data = true
  · by_cases h2 : chars_le b.data a.data = true
    · have hab : a = b := string_eq_of_chars_le a b h h2
      subst hab
      refine ⟨rfl, ?_, ?_, ?_⟩
      · simp [room_id_for, py_min, py_max, sort2, chat_tag_join, h]
      · simp [sort2, h]
      · simp [sort2, h]
    · refine ⟨?_, ?_, ?_, ?_⟩
      · simp [room_id_for, py_min, py_max, h, h2]
      · simp [room_id_for, py_min, py_max, sort2, chat_tag_join, h]
      · simp [sort2, h]
      · simp [sort2, h]
  · have h2 : chars_le b.data a.data = true := by
      rcases chars_le_total a.data b.data with ht | ht
      · exact absurd ht h
      · exact ht
    refine ⟨?_, ?_, ?_, ?_⟩
    · simp [room_id_for, py_min, py_max, h, h2]
    · simp [room_id_for, py_min, py_max, sort2, chat_tag_join, h]
    · simpa [sort2, h] using List.Perm.swap a b []
    · simp [sort2, h, h2]

/-!
## Lemmas about `disconnect` and the send primitives
-/

theorem not_mem_of_not_contains (l : List String) (a : String)
    (h : ¬ l.contains a = true) : a ∉ l :=
  fun hm => h ((contains_iff_mem l a).mpr hm)

theorem disconnect_message_history (m : Manager) (u : String) :
    (disconnect m u).message_history = m.message_history := rfl

theorem mem_disconnect_active (m : Manager) (u v : String) :
    v ∈ (disconnect m u).active_connections ↔ v ∈ m.active_connections ∧ v ≠ u := by
  show v ∈ (if m.active_connections.contains u then
      m.active_connections.filter (fun y => y ≠ u) else m.active_connections) ↔ _
  by_cases h : m.active_connections.contains u = true
  · rw [if_pos h]
    simp [List.mem_filter]
  · rw [if_neg h]
    have hu := not_mem_of_not_contains _ _ h
    constructor
    · intro hv
      exact ⟨hv, fun he => hu (he ▸ hv)⟩
    · exact fun hv => hv.1

theorem prune_user_sub (u : String) (rooms : List (String × List String)) :
    ∀ p2 ∈ prune_user u rooms, ∃ p ∈ rooms,
      p2.1 = p.1 ∧ ∀ v ∈ p2.2, v ∈ p.2 ∧ v ≠ u := by
  intro p2 hp2
  have hp2m : p2 ∈ rooms.filterMap (fun p =>
      if p.2.contains u then
        if set_remove u p.2 = [] then none
        else some (p.1, set_remove u p.2)
      else some p) := hp2
  rw [List.mem_filterMap] at hp2m
  obtain ⟨p, hp, hf⟩ := hp2m
  refine ⟨p, hp, ?_⟩
  by_cases hc : p.2.contains u = true
  · rw [if_pos hc] at hf
    by_cases he : set_remove u p.2 = []
    · rw [if_pos he] at hf
      exact absurd hf (by simp)
    · rw [if_neg he] at hf
      have hf2 : p2 = (p.1, set_remove u p.2) := by
        injection hf with h
        exact h.symm
      subst hf2
      exact ⟨rfl, fun v hv => (mem_set_remove _ _ _).mp hv⟩
  · rw [if_neg hc] at hf
    have hf2 : p2 = p := by
      injection hf with h
      exact h.symm
    subst hf2
    have hu := not_mem_of_not_contains _ _ hc
    exact ⟨rfl, fun v hv => ⟨hv, fun he => hu (he ▸ hv)⟩⟩

theorem disconnect_rooms_sub (m : Manager) (u : String) :
    ∀ p2 ∈ (disconnect m u).chat_rooms, ∃ p ∈ m.chat_rooms,
      p2.1 = p.1 ∧ ∀ v ∈ p2.2, v ∈ p.2 ∧ v ≠ u :=
  fun p2 hp2 => prune_user_sub u m.chat_rooms p2 hp2

theorem sp_spec (fails : String → Bool) (m : Manager) (msg : Msg) (u : String) :
    (m.active_connections.contains u = true ∧ fails u = false ∧
      send_personal_message fails m msg u = (m, [Event.delivered u msg])) ∨
    (m.active_connections.contains u = true ∧ fails u = true ∧
      send_personal_message fails m msg u = (disconnect m u, [Event.sendError u])) ∨
    (m.active_connections.contains u = false ∧
      send_personal_message fails m msg u = (m, [])) := by
  unfold send_personal_message
  by_cases hc : m.active_connections.contains u = true
  · by_cases hf : fails u = true
    · exact Or.inr (Or.inl ⟨hc, hf, by rw [if_pos hc, if_pos hf]⟩)
    · exact Or.inl ⟨hc, by simpa using hf, by
        rw [if_pos hc, if_neg (by simp [hf])]⟩
  · exact Or.inr (Or.inr ⟨by simpa using hc, by rw [if_neg hc]⟩)

theorem sp_message_history (fails : String → Bool) (m : Manager) (msg : Msg) (u : String) :
    (send_personal_message fails m msg u).1.message_history = m.message_history := by
  rcases sp_spec fails m msg u with ⟨_, _, h⟩ | ⟨_, _, h⟩ | ⟨_, h⟩ <;> rw [h]
  rfl

theorem sp_active_subset (fails : String → Bool) (m : Manager) (msg : Msg) (u v : String)
    (hv : v ∈ (send_personal_message fails m msg u).1.active_connections) :
    v ∈ m.active_connections := by
  rcases sp_spec fails m msg u with ⟨_, _, h⟩ | ⟨_, _, h⟩ | ⟨_, h⟩ <;> rw [h] at hv
  · exact hv
  · exact ((mem_disconnect_active m u v).mp hv).1
  · exact hv

theorem sp_active_keep (fails : String → Bool) (m : Manager) (msg : Msg) (u v : String)
    (hv : v ∈ m.active_connections) (hf : fails v = false) :
    v ∈ (send_personal_message fails m msg u).1.active_connections := by
  rcases sp_spec fails m msg u with ⟨_, _, h⟩ | ⟨_, hfu, h⟩ | ⟨_, h⟩ <;> rw [h]
  · exact hv
  · rw [mem_disconnect_active]
    refine ⟨hv, fun he => ?_⟩
    rw [he, hfu] at hf
    simp at hf
  · exact hv

theorem ste_message_history (fails : String → Bool) (msg : Msg) :
    ∀ (us : List String) (m : Manager),
      (send_to_each fails msg m us).1.message_history = m.message_history
  | [], _ => rfl
  | u :: us, m => by
    simp only [send_to_each]
    rw [ste_message_history fails msg us]
    exact sp_message_history fails m msg u

theorem ste_active_subset (fails : String → Bool) (msg : Msg) :
    ∀ (us : List String) (m : Manager) (v : String),
      v ∈ (send_to_each fails msg m us).1.active_connections → v ∈ m.active_connections
  | [], _, _ => fun h => h
  | u :: us, m, v => by
    simp only [send_to_each]
    intro h
    exact sp_active_subset fails m msg u v
      (ste_active_subset fails msg us (send_personal_message fails m msg u).1 v h)

theorem ste_not_mem_active (fails : String → Bool) (msg : Msg) (us : List String)
    (m : Manager) (v : String) (h : v ∉ m.active_connections) :
    v ∉ (send_to_each fails msg m us).1.active_connections :=
  fun hv => h (ste_active_subset fails msg us m v hv)

theorem ste_active_keep (fails : String → Bool) (msg : Msg) :
    ∀ (us : List String) (m : Manager) (v : String),
      v ∈ m.active_connections → fails v = false →
      v ∈ (send_to_each fails msg m us).1.active_connections
  | [], _, _ => fun hv _ => hv
  | u :: us, m, v => by
    intro hv hf
    simp only [send_to_each]
    exact ste_active_keep fails msg us (send_personal_message fails m msg u).1 v
      (sp_active_keep fails m msg u v hv hf) hf

theorem ste_delivers (fails : String → Bool) (msg : Msg) :
    ∀ (us : List String) (m : Manager) (v : String),
      v ∈ us → v ∈ m.active_connections → fails v = false →
      Event.delivered v msg ∈ (send_to_each fails msg m us).2
  | [], _, _ => by intro h; cases h
  | u :: us, m, v => by
    intro hv hact hf
    simp only [send_to_each]
    rcases List.mem_cons.mp hv with rfl | hvs
    · rcases sp_spec fails m msg v with ⟨_, _, h⟩ | ⟨_, hfu, h⟩ | ⟨hc, h⟩
      · rw [h]
        simp
      · rw [hfu] at hf
        exact absurd hf (by simp)
      · rw [← contains_iff_mem] at hact
        rw [hact] at hc
        exact absurd hc (by simp)
    · apply List.mem_append_right
      exact ste_delivers fails msg us (send_personal_message fails m msg u).1 v hvs
        (sp_active_keep fails m msg u v hact hf) hf

theorem ste_fail_removes (fails : String → Bool) (msg : Msg) :
    ∀ (us : List String) (m : Manager) (u : String),
      u ∈ us → u ∈ m.active_connections → fails u = true →
      u ∉ (send_to_each fails msg m us).1.active_connections ∧
        Event.sendError u ∈ (send_to_each fails msg m us).2
  | [], _, _ => by intro h; cases h
  | w :: ws, m, u => by
    intro hu hact hf
    simp only [send_to_each]
    by_cases hw : u = w
    · subst hw
      have hc : m.active_connections.contains u = true := by
        rw [contains_iff_mem]
        exact hact
      rcases sp_spec fails m msg u with ⟨_, hfu, h⟩ | ⟨_, _, h⟩ | ⟨hc2, h⟩
      · rw [hfu] at hf
        exact absurd hf (by simp)
      · rw [h]
        refine ⟨?_, by simp⟩
        apply ste_not_mem_active
        rw [mem_disconnect_active]
        simp
      · rw [hc] at hc2
        exact absurd hc2 (by simp)
    · have hus : u ∈ ws := by
        rcases List.mem_cons.mp hu with he | hm
        · exact absurd he hw
        · exact hm
      have hact2 : u ∈ (send_personal_message fails m msg w).1.active_connections := by
        rcases sp_spec fails m msg w with ⟨_, _, h⟩ | ⟨_, _, h⟩ | ⟨_, h⟩ <;> rw [h]
        · exact hact
        · rw [mem_disconnect_active]
          exact ⟨hact, hw⟩
        · exact hact
      have ih := ste_fail_removes fails msg ws (send_personal_message fails m msg w).1 u
        hus hact2 hf
      exact ⟨ih.1, List.mem_append_right _ ih.2⟩

/-!
## C5: a failed delivery self-heals and never aborts the fan-out
-/

/-- C5: when a room fan-out hits recipient `u` whose transport fails, `u` is
unregistered from the connection registry as a side effect and the failure is
reported as a `sendError` event, while the fan-out still delivers to every
recipient that stays registered with a healthy transport — the failure is
never raised to the sender and never aborts the rest of the loop. -/
theorem delivery_failure_contained (fails : String → Bool) (m : Manager) (msg : Msg)
    (room_id : String) (excl : Option String) (ps : List String) (u : String)
    (hps : m.chat_rooms.lookup room_id = some ps)
    (hu : u ∈ room_recipients ps excl)
    (hact : u ∈ m.active_connections)
    (hf : fails u = true) :
    u ∉ (send_room_message fails m msg room_id excl).1.active_connections ∧
    Event.sendError u ∈ (send_room_message fails m msg room_id excl).2 ∧
    ∀ v, v ∈ room_recipients ps excl → v ∈ m.active_connections → fails v = false →
      Event.delivered v msg ∈ (send_room_message fails m msg room_id excl).2 := by
  have hsrm : send_room_message fails m msg room_id excl
      = send_to_each fails msg m (room_recipients ps excl) := by
    unfold send_room_message
    rw [hps]
  rw [hsrm]
  have hfr := ste_fail_removes fails msg (room_recipients ps excl) m u hu hact hf
  exact ⟨hfr.1, hfr.2, fun v hv hva hvf => ste_delivers fails msg _ m v hv hva hvf⟩

/-- Describes an environment where exactly the transport of user `b` fails. -/
def fails_b : String → Bool := fun u => u == "b"

/-- A reachable three-member room: `a`, `b` and `c` connect, `a` and `b` get
their deterministic pair room, then `c` joins it ad hoc. -/
def m_c5 : Manager :=
  join_room
    ((create_chat_room
      (connect no_failure
        (connect no_failure
          (connect no_failure initial_manager "a"
            (some { role := some "DOCTOR", full_name := some "A" })).1
          "b" (some { role := some "PATIENT", full_name := some "B" })).1
        "c" (some { role := some "PATIENT", full_name := some "C" })).1
      "a" "b").1)
    "c" "chat_a_b"

theorem delivery_failure_contained_witness :
    "b" ∉ (send_room_message fails_b m_c5 (Msg.pong "t") "chat_a_b" none).1.active_connections ∧
    Event.sendError "b" ∈ (send_room_message fails_b m_c5 (Msg.pong "t") "chat_a_b" none).2 ∧
    ∀ v, v ∈ room_recipients ["a", "b", "c"] none → v ∈ m_c5.active_connections →
      fails_b v = false →
      Event.delivered v (Msg.pong "t") ∈ (send_room_message fails_b m_c5 (Msg.pong "t") "chat_a_b" none).2 :=
  delivery_failure_contained fails_b m_c5 (Msg.pong "t") "chat_a_b" none ["a", "b", "c"] "b"
    (by decide) (by decide) (by decide) (by decide)

/-!
## Shared concrete scenarios
-/

/-- A `chat_message` payload carrying a room id. -/
def chat_payload (rid : String) : MessageData :=
  { kind := some "chat_message", room_id := some rid, content := some "hello",
    is_typing := none, file_info := none, message_id := none, status := none }

/-- A `chat_message` payload with the required `room_id` missing. -/
def chat_missing : MessageData :=
  { kind := some "chat_message", room_id := none, content := some "hello",
    is_typing := none, file_info := none, message_id := none, status := none }

/-- A `file_share` payload carrying a room id and file info. -/
def file_payload (rid : String) : MessageData :=
  { kind := some "file_share", room_id := some rid, content := none,
    is_typing := none,
    file_info := some { name := some "scan.png", size := none, kind := none,
                        url := none, thumbnail := none },
    message_id := none, status := none }

/-- The deterministic room for the pair `d`, `p`, created from scratch. -/
def m_room : Manager := (create_chat_room initial_manager "d" "p").1

/-- A single connected user `u` and nothing else. -/
def m_conn : Manager :=
  (connect no_failure initial_manager "u"
    (some { role := some "PATIENT", full_name := some "U" })).1

/-- The state after both members of `chat_d_p` disconnect: the room is gone
from the directory, but its (empty) history log is left behind. -/
def m_orphan : Manager := disconnect (disconnect m_room "d") "p"

/-!
## C8: a chat message without a room id is rejected with an error
-/

theorem chat_missing_room_reply (fails : String → Bool) (m : Manager)
    (data : MessageData) (sender now : String)
    (hd : data.room_id = none)
    (hconn : m.active_connections.contains sender = true)
    (hok : fails sender = false) :
    handle_chat_message fails m data sender now =
      (m, [Event.delivered sender (Msg.error "Room ID is required for chat messages")]) := by
  unfold handle_chat_message
  rw [hd]
  unfold send_personal_message
  rw [if_pos hconn, if_neg (by simp [hok])]

/-- C8: handling a `chat_message` whose payload has no `room_id` sends exactly
one event — the error reply to the sender — and leaves the whole state
unchanged, so nothing is appended to any history and no one else receives
anything (stated for a sender who is registered with a healthy transport, the
situation of the websocket loop). -/
theorem chat_message_requires_room_id (fails : String → Bool) (m : Manager)
    (data : MessageData) (sender now : String)
    (hd : data.room_id = none)
    (hconn : m.active_connections.contains sender = true)
    (hok : fails sender = false) :
    handle_chat_message fails m data sender now =
      (m, [Event.delivered sender (Msg.error "Room ID is required for chat messages")]) :=
  chat_missing_room_reply fails m data sender now hd hconn hok

theorem chat_message_requires_room_id_witness :
    handle_chat_message no_failure m_conn chat_missing "u" "t" =
      (m_conn, [Event.delivered "u" (Msg.error "Room ID is required for chat messages")]) :=
  chat_message_requires_room_id no_failure m_conn chat_missing "u" "t" rfl (by decide) rfl

/-!
## C9: a chat message for a room missing from the directory
-/

/-- Refutes C9 as stated: after both members of `chat_d_p` disconnect, the
room is gone from the directory but its history log survives; a later
`chat_message` naming that id is indeed silent (no error, no delivery) yet
it does create a history entry in the orphaned log, contradicting the
claim that no history entry is created anywhere. -/
theorem ghost_room_message_appends :
    m_orphan.chat_rooms.lookup "chat_d_p" = none ∧
    (handle_chat_message no_failure m_orphan (chat_payload "chat_d_p") "x" "t").2 = [] ∧
    (((handle_chat_message no_failure m_orphan (chat_payload "chat_d_p") "x" "t").1.message_history.lookup
        "chat_d_p").getD []).length = 1 := by
  decide

/-- Lists what `send_room_message` does for a room id absent from the
directory: nothing at all. -/
theorem srm_unknown_room (fails : String → Bool) (m : Manager) (msg : Msg)
    (rid : String) (excl : Option String) (h : m.chat_rooms.lookup rid = none) :
    send_room_message fails m msg rid excl = (m, []) := by
  unfold send_room_message
  rw [h]

/-- Shows the chat-history update never touches the room directory. -/
theorem chat_history_update_chat_rooms (m : Manager) (cm : ChatMessage) (rid : String) :
    (chat_history_update m cm rid).chat_rooms = m.chat_rooms := by
  unfold chat_history_update
  split <;> rfl

/-- Shows the chat-history update never touches the connection registry. -/
theorem chat_history_update_active (m : Manager) (cm : ChatMessage) (rid : String) :
    (chat_history_update m cm rid).active_connections = m.active_connections := by
  unfold chat_history_update
  split <;> rfl

/-- Shows the chat-history update is a no-op when the room has no history log. -/
theorem chat_history_update_absent (m : Manager) (cm : ChatMessage) (rid : String)
    (h : contains_key rid m.message_history = false) :
    chat_history_update m cm rid = m := by
  unfold chat_history_update
  rw [if_neg (by simp [h])]

/-- C9 amended: a `chat_message` naming a room id absent from the room
directory is fully silent — no error reply, no delivery — and leaves the
registry and directory untouched; the state is completely unchanged
whenever the id is absent from the history log as well (a history entry is
appended only to an orphaned log left behind by `disconnect`). -/
theorem chat_message_unknown_room_silent (fails : String → Bool) (m : Manager)
    (data : MessageData) (sender now room_id : String)
    (hrid : data.room_id = some room_id)
    (hroom : m.chat_rooms.lookup room_id = none) :
    (handle_chat_message fails m data sender now).2 = [] ∧
    (handle_chat_message fails m data sender now).1.chat_rooms = m.chat_rooms ∧
    (handle_chat_message fails m data sender now).1.active_connections = m.active_connections ∧
    (contains_key room_id m.message_history = false →
      handle_chat_message fails m data sender now = (m, [])) := by
  simp only [handle_chat_message, hrid]
  rw [srm_unknown_room _ _ _ _ _ (by rw [chat_history_update_chat_rooms]; exact hroom)]
  refine ⟨rfl, chat_history_update_chat_rooms .., chat_history_update_active .., fun h => ?_⟩
  rw [chat_history_update_absent _ _ _ h]

theorem chat_message_unknown_room_silent_witness :
    (handle_chat_message no_failure m_orphan (chat_payload "chat_d_p") "x" "t").2 = [] ∧
    (handle_chat_message no_failure m_orphan (chat_payload "chat_d_p") "x" "t").1.chat_rooms =
      m_orphan.chat_rooms ∧
    (handle_chat_message no_failure m_orphan (chat_payload "chat_d_p") "x" "t").1.active_connections =
      m_orphan.active_connections ∧
    (contains_key "chat_d_p" m_orphan.message_history = false →
      handle_chat_message no_failure m_orphan (chat_payload "chat_d_p") "x" "t" = (m_orphan, [])) :=
  chat_message_unknown_room_silent no_failure m_orphan (chat_payload "chat_d_p") "x" "t"
    "chat_d_p" rfl (by decide)

/-!
## C1: chat appends trim the history to 100 entries, file appends do not
-/

/-- Shows a fan-out never changes any room's history log. -/
theorem srm_message_history (fails : String → Bool) (m : Manager) (msg : Msg)
    (rid : String) (excl : Option String) :
    (send_room_message fails m msg rid excl).1.message_history = m.message_history := by
  unfold send_room_message
  split
  · rfl
  · exact ste_message_history fails msg _ m

/-- Rewrites the source's append-then-conditionally-trim as one `take_last`. -/
theorem append_trimmed_eq (cm : ChatMessage) (old : List HistoryEntry) :
    append_trimmed cm old = take_last 100 (old ++ [HistoryEntry.chat cm]) := by
  unfold append_trimmed
  by_cases h : (old ++ [HistoryEntry.chat cm]).length > 100
  · rw [if_pos h]
  · rw [if_neg h, take_last_of_le _ _ (by omega)]

/-- The sequence of `n` chat messages sent into `chat_d_p` by `d`. -/
def append_chats (n : Nat) (m : Manager) : Manager :=
  (List.range n).foldl
    (fun acc i => (handle_chat_message no_failure acc (chat_payload "chat_d_p") "d" (toString i)).1) m

set_option maxRecDepth 10000 in
/-- Refutes C1 as stated: 101 sequential chat messages do leave exactly 100
entries, but the very next `file_share` append, which should evict the oldest
entry per the claim, instead grows the history to 101 entries. -/
theorem history_cap_violated_by_file_share :
    (((append_chats 101 m_room).message_history.lookup "chat_d_p").getD []).length = 100 ∧
    (((handle_file_share no_failure (append_chats 101 m_room) (file_payload "chat_d_p") "d"
        "t101").1.message_history.lookup "chat_d_p").getD []).length = 101 := by
  decide

/-- Reads back the room history after the chat-history update. -/
theorem chat_history_update_lookup (m : Manager) (cm : ChatMessage) (rid : String)
    (hk : contains_key rid m.message_history = true) :
    (chat_history_update m cm rid).message_history.lookup rid =
      (m.message_history.lookup rid).map (append_trimmed cm) := by
  unfold chat_history_update
  rw [if_pos hk]
  exact lookup_map_value rid (append_trimmed cm) m.message_history

/-- Reads back the room history after the file-history update. -/
theorem file_history_update_lookup (m : Manager) (fm : FileMessage) (rid : String)
    (hk : contains_key rid m.message_history = true) :
    (file_history_update m fm rid).message_history.lookup rid =
      (m.message_history.lookup rid).map (fun h => h ++ [HistoryEntry.file fm]) := by
  unfold file_history_update
  rw [if_pos hk]
  exact lookup_map_value rid (fun h => h ++ [HistoryEntry.file fm]) m.message_history

/-- C1 amended: whenever a room has a history log, a `chat_message` append
leaves that log equal to the last 100 entries of the old log plus the new
entry (FIFO eviction beyond 100), while a `file_share` append extends the log
with no trimming at all, so file shares can grow a history beyond 100. -/
theorem history_trim_behaviour (fails : String → Bool) (m : Manager) (data : MessageData)
    (sender now room_id : String) (fi : FileInfo)
    (hrid : data.room_id = some room_id)
    (hfi : data.file_info = some fi)
    (hk : contains_key room_id m.message_history = true) :
    (handle_chat_message fails m data sender now).1.message_history.lookup room_id =
      some (take_last 100 ((m.message_history.lookup room_id).getD [] ++
        [HistoryEntry.chat (mk_chat_message data sender (m.user_info.lookup sender) room_id now)])) ∧
    (handle_file_share fails m data sender now).1.message_history.lookup room_id =
      some ((m.message_history.lookup room_id).getD [] ++
        [HistoryEntry.file (mk_file_message sender (m.user_info.lookup sender) room_id fi now)]) := by
  obtain ⟨old, hold⟩ := Option.isSome_iff_exists.mp hk
  constructor
  · have h1 : (handle_chat_message fails m data sender now).1.message_history =
        (chat_history_update m
          (mk_chat_message data sender (m.user_info.lookup sender) room_id now)
          room_id).message_history := by
      simp only [handle_chat_message, hrid]
      exact srm_message_history fails _ _ room_id none
    rw [h1, chat_history_update_lookup m _ room_id hk, hold]
    simp only [Option.map_some', Option.getD_some]
    rw [append_trimmed_eq]
  · have h1 : (handle_file_share fails m data sender now).1.message_history =
        (file_history_update m
          (mk_file_message sender (m.user_info.lookup sender) room_id fi now)
          room_id).message_history := by
      simp only [handle_file_share, hrid, hfi]
      exact srm_message_history fails _ _ room_id none
    rw [h1, file_history_update_lookup m _ room_id hk, hold]
    simp only [Option.map_some', Option.getD_some]

theorem history_trim_behaviour_witness :
    (handle_chat_message no_failure m_room (file_payload "chat_d_p") "d" "t").1.message_history.lookup "chat_d_p" =
      some (take_last 100 ((m_room.message_history.lookup "chat_d_p").getD [] ++
        [HistoryEntry.chat (mk_chat_message (file_payload "chat_d_p") "d"
          (m_room.user_info.lookup "d") "chat_d_p" "t")])) ∧
    (handle_file_share no_failure m_room (file_payload "chat_d_p") "d" "t").1.message_history.lookup "chat_d_p" =
      some ((m_room.message_history.lookup "chat_d_p").getD [] ++
        [HistoryEntry.file (mk_file_message "d" (m_room.user_info.lookup "d") "chat_d_p"
          { name := some "scan.png", size := none, kind := none, url := none, thumbnail := none }
          "t")]) :=
  history_trim_behaviour no_failure m_room (file_payload "chat_d_p") "d" "t" "chat_d_p"
    { name := some "scan.png", size := none, kind := none, url := none, thumbnail := none }
    rfl rfl (by decide)

/-!
## C2: what actually happens to emptied rooms and their history
-/

theorem lookup_eq_none_of_not_mem_keys {α : Type} (d : List (String × α)) (r : String)
    (h : r ∉ d.map Prod.fst) : d.lookup r = none := by
  induction d with
  | nil => rfl
  | cons p ps ih =>
    obtain ⟨k, v⟩ := p
    simp only [List.map_cons, List.mem_cons] at h
    push_neg at h
    have hbeq : (r == k) = false := by
      simp [beq_iff_eq]
      exact h.1
    simp only [List.lookup, hbeq]
    exact ih h.2

theorem prune_user_lookup_none (u r : String) :
    ∀ (rooms : List (String × List String)) (ps : List String),
      (rooms.map Prod.fst).Nodup → rooms.lookup r = some ps →
      ps.contains u = true → set_remove u ps = [] →
      (prune_user u rooms).lookup r = none := by
  intro rooms
  induction rooms with
  | nil =>
    intro ps _ hlk
    cases hlk
  | cons q rest ih =>
    intro ps hn hlk hu he
    obtain ⟨k, v⟩ := q
    by_cases hrk : r = k
    · subst hrk
      have hv : v = ps := by
        simp only [List.lookup, beq_self_eq_true] at hlk
        injection hlk
      subst hv
      have hstep : prune_user u ((r, v) :: rest) = prune_user u rest := by
        unfold prune_user
        rw [List.filterMap_cons]
        have hfv : (if (r, v).2.contains u then
            if set_remove u (r, v).2 = [] then none
            else some ((r, v).1, set_remove u (r, v).2)
          else some (r, v)) = none := by
          rw [if_pos (by exact hu), if_pos he]
        rw [hfv]
      rw [hstep]
      apply lookup_eq_none_of_not_mem_keys
      intro hmem
      have hrest : r ∈ rest.map Prod.fst := by
        rw [List.mem_map] at hmem
        obtain ⟨p2, hp2, hp2r⟩ := hmem
        obtain ⟨p, hp, hpeq, _⟩ := prune_user_sub u rest p2 hp2
        rw [List.mem_map]
        exact ⟨p, hp, by rw [← hpeq, hp2r]⟩
      have hnd2 : (r :: rest.map Prod.fst).Nodup := by simpa using hn
      exact (List.nodup_cons.mp hnd2).1 hrest
    · have hbeq : (r == k) = false := by simp [beq_iff_eq, hrk]
      have hlk2 : rest.lookup r = some ps := by
        simpa [List.lookup, hbeq] using hlk
      have hnd2 : (k :: rest.map Prod.fst).Nodup := by simpa using hn
      have hn2 : (rest.map Prod.fst).Nodup := (List.nodup_cons.mp hnd2).2
      have ihr := ih ps hn2 hlk2 hu he
      unfold prune_user
      rw [List.filterMap_cons]
      cases hf : (if (k, v).2.contains u then
          if set_remove u (k, v).2 = [] then none
          else some ((k, v).1, set_remove u (k, v).2)
        else some (k, v)) with
      | none => exact ihr
      | some q2 =>
        have hq2 : q2.1 = k := by
          by_cases hc : (k, v).2.contains u = true
          · rw [if_pos hc] at hf
            by_cases hemp : set_remove u (k, v).2 = []
            · rw [if_pos hemp] at hf
              cases hf
            · rw [if_neg hemp] at hf
              injection hf with hf2
              rw [← hf2]
          · rw [if_neg hc] at hf
            injection hf with hf2
            rw [← hf2]
        obtain ⟨k2, v2⟩ := q2
        have hbeq2 : (r == k2) = false := by
          simp only at hq2
          simp [beq_iff_eq, hq2, hrk]
        simp only [List.lookup, hbeq2]
        exact ihr

/-- A room whose only remaining member is `d`: `p` already left `chat_d_p`. -/
def m_leave_p : Manager := leave_room m_room "p" "chat_d_p"

/-- Refutes C2 as stated: after the last participant leaves `chat_d_p` via
`leave_room`, the room still exists in the directory with an empty
participant set; and when the last participant is removed by `disconnect`
instead, the room entry is deleted but its history log survives. -/
theorem empty_room_persists_and_history_survives :
    (leave_room m_leave_p "d" "chat_d_p").chat_rooms.lookup "chat_d_p" = some [] ∧
    m_orphan.chat_rooms.lookup "chat_d_p" = none ∧
    m_orphan.message_history.lookup "chat_d_p" = some [] := by
  decide

/-- C2 amended: `leave_room` removes the membership but never deletes the
room entry or any history log, even when the room becomes empty; `disconnect`
does delete a room it emptied from the directory (given duplicate-free room
keys), yet it never deletes the room's history log. -/
theorem room_deletion_behaviour (m : Manager) (u r : String) (ps : List String)
    (hn : (m.chat_rooms.map Prod.fst).Nodup)
    (hlk : m.chat_rooms.lookup r = some ps)
    (hu : ps.contains u = true)
    (he : set_remove u ps = []) :
    (leave_room m u r).chat_rooms.map Prod.fst = m.chat_rooms.map Prod.fst ∧
    (leave_room m u r).message_history = m.message_history ∧
    (disconnect m u).message_history = m.message_history ∧
    (disconnect m u).chat_rooms.lookup r = none := by
  refine ⟨?_, ?_, rfl, ?_⟩
  · simp only [leave_room, hlk]
    rw [if_pos hu]
    exact keys_map_value r _ m.chat_rooms
  · simp only [leave_room, hlk]
    rw [if_pos hu]
  · exact prune_user_lookup_none u r m.chat_rooms ps hn hlk hu he

theorem room_deletion_behaviour_witness :
    (leave_room m_leave_p "d" "chat_d_p").chat_rooms.map Prod.fst =
      m_leave_p.chat_rooms.map Prod.fst ∧
    (leave_room m_leave_p "d" "chat_d_p").message_history = m_leave_p.message_history ∧
    (disconnect m_leave_p "d").message_history = m_leave_p.message_history ∧
    (disconnect m_leave_p "d").chat_rooms.lookup "chat_d_p" = none :=
  room_deletion_behaviour m_leave_p "d" "chat_d_p" ["d"]
    (by decide) (by decide) (by decide) (by decide)

/-!
## C7: the history read path
-/

theorem take_last_suffix {α : Type} (n : Nat) (l : List α) : take_last n l <:+ l :=
  ⟨l.take (l.length - n), List.take_append_drop _ l⟩

/-- The room `chat_d_p` with a single chat message in its history. -/
def m_hist : Manager :=
  (handle_chat_message no_failure m_room (chat_payload "chat_d_p") "d" "t0").1

/-- Refutes C7 as stated: requesting history with `limit = 0` returns the
whole history (here one entry) rather than at most `limit` entries, because
the source falls into the `if limit else` branch on the falsy value `0`. -/
theorem history_limit_zero_returns_all :
    ¬ ((get_chat_history m_hist "chat_d_p" "d" 0).length ≤ 0) := by
  decide

/-- C7 amended: for a nonzero `limit` the history read returns at most
`limit` entries, as an oldest-first suffix of that room's own history; a
non-member requester gets the empty sequence, `limit = 0` returns the entire
history to a member, and an unknown room yields the empty sequence. -/
theorem get_chat_history_spec (m : Manager) (room_id user_id other : String)
    (limit : Nat) (ps : List String)
    (hl : limit ≠ 0)
    (hps : m.chat_rooms.lookup room_id = some ps)
    (hother : m.chat_rooms.lookup other = none) :
    (get_chat_history m room_id user_id limit).length ≤ limit ∧
    get_chat_history m room_id user_id limit <:+ (m.message_history.lookup room_id).getD [] ∧
    (ps.contains user_id = false → get_chat_history m room_id user_id limit = []) ∧
    (ps.contains user_id = true →
      get_chat_history m room_id user_id 0 = (m.message_history.lookup room_id).getD []) ∧
    get_chat_history m other user_id limit = [] := by
  refine ⟨?_, ?_, ?_, ?_, ?_⟩
  · simp only [get_chat_history, hps]
    by_cases hc : ps.contains user_id = true
    · rw [if_pos hc, if_pos hl]
      exact length_take_last limit _
    · rw [if_neg hc]
      simp
  · simp only [get_chat_history, hps]
    by_cases hc : ps.contains user_id = true
    · rw [if_pos hc, if_pos hl]
      exact take_last_suffix limit _
    · rw [if_neg hc]
      exact List.nil_suffix
  · intro hc
    simp only [get_chat_history, hps]
    rw [if_neg (by simp only [hc]; simp)]
  · intro hc
    simp only [get_chat_history, hps]
    rw [if_pos hc, if_neg (by simp)]
  · simp only [get_chat_history, hother]

theorem get_chat_history_spec_witness :
    (get_chat_history m_hist "chat_d_p" "d" 50).length ≤ 50 ∧
    get_chat_history m_hist "chat_d_p" "d" 50 <:+ (m_hist.message_history.lookup "chat_d_p").getD [] ∧
    ((["d", "p"] : List String).contains "d" = false → get_chat_history m_hist "chat_d_p" "d" 50 = []) ∧
    ((["d", "p"] : List String).contains "d" = true →
      get_chat_history m_hist "chat_d_p" "d" 0 = (m_hist.message_history.lookup "chat_d_p").getD []) ∧
    get_chat_history m_hist "nowhere" "d" 50 = [] :=
  get_chat_history_spec m_hist "chat_d_p" "d" "nowhere" 50 ["d", "p"]
    (by decide) (by decide) (by decide)

/-!
## C10: totality and idempotence of disconnect
-/

theorem contains_eq_false_of_not_mem (l : List String) (a : String) (h : a ∉ l) :
    l.contains a = false := by
  cases hb : l.contains a
  · rfl
  · exact absurd ((contains_iff_mem l a).mp hb) h

theorem lookup_erase_key {α : Type} (k : String) (d : List (String × α)) :
    (erase_key k d).lookup k = none := by
  apply lookup_eq_none_of_not_mem_keys
  intro hmem
  rw [List.mem_map] at hmem
  obtain ⟨p, hp, hpk⟩ := hmem
  have hne := (List.mem_filter.mp hp).2
  rw [decide_eq_true_iff] at hne
  exact hne hpk

theorem disconnect_user_info_gone (m : Manager) (u : String) :
    contains_key u (disconnect m u).user_info = false := by
  show contains_key u (if contains_key u m.user_info then erase_key u m.user_info
    else m.user_info) = false
  by_cases h : contains_key u m.user_info = true
  · rw [if_pos h]
    unfold contains_key
    rw [lookup_erase_key]
    rfl
  · rw [if_neg h]
    exact Bool.eq_false_iff.mpr (by simpa using h)

theorem prune_user_id (u : String) :
    ∀ rooms : List (String × List String),
      (∀ p ∈ rooms, p.2.contains u = false) → prune_user u rooms = rooms
  | [], _ => rfl
  | q :: rest, h => by
    unfold prune_user
    rw [List.filterMap_cons]
    have hq : q.2.contains u = false := h q (List.mem_cons_self q rest)
    rw [if_neg (by simp only [hq]; simp)]
    have ihr := prune_user_id u rest (fun p hp => h p (List.mem_cons_of_mem q hp))
    unfold prune_user at ihr
    rw [ihr]

theorem disconnect_noop (m : Manager) (u : String)
    (ha : m.active_connections.contains u = false)
    (hi : contains_key u m.user_info = false)
    (hr : ∀ p ∈ m.chat_rooms, p.2.contains u = false) :
    disconnect m u = m := by
  unfold disconnect
  rw [if_neg (by simp only [ha]; simp), if_neg (by simp only [hi]; simp),
    prune_user_id u m.chat_rooms hr]

theorem disconnect_idem (m : Manager) (u : String) :
    disconnect (disconnect m u) u = disconnect m u := by
  apply disconnect_noop
  · apply contains_eq_false_of_not_mem
    intro hm
    exact ((mem_disconnect_active m u u).mp hm).2 rfl
  · exact disconnect_user_info_gone m u
  · intro p hp
    obtain ⟨p0, _, _, hsub⟩ := disconnect_rooms_sub m u p hp
    apply contains_eq_false_of_not_mem
    intro hm
    exact (hsub u hm).2 rfl

/-- Refutes C10 as stated: `d` has never connected, so it is absent from the
connection registry, yet `disconnect` for `d` changes the state — it strips
`d` out of the room directory entry `create_chat_room` had given it. -/
theorem disconnect_unregistered_mutates :
    ("d" ∈ m_room.active_connections → False) ∧ disconnect m_room "d" ≠ m_room := by
  decide

/-- C10 amended: `disconnect` is total, and it is a no-op exactly for a user
absent from the registry, the user-info map and every room's participant set;
in particular it is idempotent — a second `disconnect` for the same user
(whose first call removed them from all three) changes nothing. A user that
is unregistered but still sits in a room (possible via `create_chat_room` or
`join_room`) is still swept out of the room directory. -/
theorem disconnect_total_idempotent (m m2 : Manager) (u v : String)
    (ha : m.active_connections.contains u = false)
    (hi : contains_key u m.user_info = false)
    (hr : ∀ p ∈ m.chat_rooms, p.2.contains u = false) :
    disconnect m u = m ∧ disconnect (disconnect m2 v) v = disconnect m2 v :=
  ⟨disconnect_noop m u ha hi hr, disconnect_idem m2 v⟩

theorem disconnect_total_idempotent_witness :
    disconnect m_conn "z" = m_conn ∧
    disconnect (disconnect m_room "d") "d" = disconnect m_room "d" :=
  disconnect_total_idempotent m_conn m_room "z" "d" (by decide) (by decide) (by decide)

/-!
## C4: behaviour on missing required fields, kind by kind
-/

theorem file_missing_field_reply (fails : String → Bool) (m : Manager)
    (data : MessageData) (sender now : String)
    (hd : data.room_id = none ∨ data.file_info = none)
    (hconn : m.active_connections.contains sender = true)
    (hok : fails sender = false) :
    handle_file_share fails m data sender now =
      (m, [Event.delivered sender (Msg.error "Room ID and file info are required")]) := by
  have herr : send_personal_message fails m (Msg.error "Room ID and file info are required")
      sender = (m, [Event.delivered sender (Msg.error "Room ID and file info are required")]) := by
    unfold send_personal_message
    rw [if_pos hconn, if_neg (by simp [hok])]
  rcases hd with hd | hd
  · cases hfi : data.file_info with
    | none =>
      simp only [handle_file_share, hd, hfi]
      exact herr
    | some fi =>
      simp only [handle_file_share, hd, hfi]
      exact herr
  · cases hri : data.room_id with
    | none =>
      simp only [handle_file_share, hri, hd]
      exact herr
    | some rid =>
      simp only [handle_file_share, hri, hd]
      exact herr

theorem status_missing_field_silent (fails : String → Bool) (m : Manager)
    (data : MessageData) (user now : String)
    (hd : data.room_id = none ∨ data.message_id = none ∨ data.status = none) :
    handle_message_status fails m data user now = (m, []) := by
  rcases hd with h | h | h
  · cases hb : data.message_id <;> cases hc : data.status <;>
      simp only [handle_message_status, h, hb, hc]
  · cases ha : data.room_id <;> cases hc : data.status <;>
      simp only [handle_message_status, ha, h, hc]
  · cases ha : data.room_id <;> cases hb : data.message_id <;>
      simp only [handle_message_status, ha, hb, h]

/-- A `typing_indicator` payload with the required `room_id` missing. -/
def typing_missing : MessageData :=
  { kind := some "typing_indicator", room_id := none, content := none,
    is_typing := some true, file_info := none, message_id := none, status := none }

/-- A `file_share` payload with the required `file_info` missing. -/
def file_missing : MessageData :=
  { kind := some "file_share", room_id := some "chat_d_p", content := none,
    is_typing := none, file_info := none, message_id := none, status := none }

/-- A `message_status` payload with the required `message_id` missing. -/
def status_missing : MessageData :=
  { kind := some "message_status", room_id := some "chat_d_p", content := none,
    is_typing := none, file_info := none, message_id := none, status := some "read" }

/-- A `join_room` payload with the required `room_id` missing. -/
def join_missing : MessageData :=
  { kind := some "join_room", room_id := none, content := none,
    is_typing := none, file_info := none, message_id := none, status := none }

/-- A `leave_room` payload with the required `room_id` missing. -/
def leave_missing : MessageData :=
  { kind := some "leave_room", room_id := none, content := none,
    is_typing := none, file_info := none, message_id := none, status := none }

/-- Refutes C4 as stated: the claim requires an `error` reply to the sender
for every kind with a missing required field, but a `typing_indicator`
without `room_id` produces no event at all — the dispatcher returns the
unchanged state and an empty event list instead of an error reply. -/
theorem typing_missing_field_no_error_reply :
    handle_websocket_message no_failure m_conn typing_missing "u" "t" = (m_conn, []) := by
  decide

/-- C4 amended: on a missing required field, `chat_message` and `file_share`
reply with an `error` event to the sender, while `typing_indicator`,
`message_status`, `join_room` and `leave_room` silently drop the event with
no reply; in every case there is no fan-out to any other connection and the
registry, room directory and history log are unchanged (the sender being
registered with a healthy transport). -/
theorem missing_required_fields_behaviour (fails : String → Bool) (m : Manager)
    (sender now : String) (d1 d2 d3 d4 d5 d6 : MessageData)
    (h1k : d1.kind = some "chat_message") (h1 : d1.room_id = none)
    (h2k : d2.kind = some "typing_indicator") (h2 : d2.room_id = none)
    (h3k : d3.kind = some "file_share")
    (h3 : d3.room_id = none ∨ d3.file_info = none)
    (h4k : d4.kind = some "message_status")
    (h4 : d4.room_id = none ∨ d4.message_id = none ∨ d4.status = none)
    (h5k : d5.kind = some "join_room") (h5 : d5.room_id = none)
    (h6k : d6.kind = some "leave_room") (h6 : d6.room_id = none)
    (hconn : m.active_connections.contains sender = true)
    (hok : fails sender = false) :
    handle_websocket_message fails m d1 sender now =
      (m, [Event.delivered sender (Msg.error "Room ID is required for chat messages")]) ∧
    handle_websocket_message fails m d2 sender now = (m, []) ∧
    handle_websocket_message fails m d3 sender now =
      (m, [Event.delivered sender (Msg.error "Room ID and file info are required")]) ∧
    handle_websocket_message fails m d4 sender now = (m, []) ∧
    handle_websocket_message fails m d5 sender now = (m, []) ∧
    handle_websocket_message fails m d6 sender now = (m, []) := by
  refine ⟨?_, ?_, ?_, ?_, ?_, ?_⟩
  · unfold handle_websocket_message
    rw [h1k]
    exact chat_missing_room_reply fails m d1 sender now h1 hconn hok
  · unfold handle_websocket_message
    rw [h2k]
    show handle_typing_indicator fails m d2 sender now = (m, [])
    unfold handle_typing_indicator
    rw [h2]
  · unfold handle_websocket_message
    rw [h3k]
    exact file_missing_field_reply fails m d3 sender now h3 hconn hok
  · unfold handle_websocket_message
    rw [h4k]
    exact status_missing_field_silent fails m d4 sender now h4
  · unfold handle_websocket_message
    rw [h5k]
    show (match d5.room_id with
      | some room_id =>
        send_personal_message fails (join_room m sender room_id)
          (Msg.chatHistory room_id (get_chat_history (join_room m sender room_id) room_id sender 50))
          sender
      | none => (m, [])) = (m, [])
    rw [h5]
  · unfold handle_websocket_message
    rw [h6k]
    show (match d6.room_id with
      | some room_id => (leave_room m sender room_id, [])
      | none => (m, [])) = (m, [])
    rw [h6]

theorem missing_required_fields_behaviour_witness :
    handle_websocket_message no_failure m_conn chat_missing "u" "t" =
      (m_conn, [Event.delivered "u" (Msg.error "Room ID is required for chat messages")]) ∧
    handle_websocket_message no_failure m_conn typing_missing "u" "t" = (m_conn, []) ∧
    handle_websocket_message no_failure m_conn file_missing "u" "t" =
      (m_conn, [Event.delivered "u" (Msg.error "Room ID and file info are required")]) ∧
    handle_websocket_message no_failure m_conn status_missing "u" "t" = (m_conn, []) ∧
    handle_websocket_message no_failure m_conn join_missing "u" "t" = (m_conn, []) ∧
    handle_websocket_message no_failure m_conn leave_missing "u" "t" = (m_conn, []) :=
  missing_required_fields_behaviour no_failure m_conn "u" "t"
    chat_missing typing_missing file_missing status_missing join_missing leave_missing
    rfl rfl rfl rfl rfl (Or.inr rfl) rfl (Or.inr (Or.inl rfl)) rfl rfl rfl rfl
    (by decide) rfl

/-!
## C3: registry/room-membership consistency across operation sequences
-/

/-- Enumerates the operations named by the mutual-consistency claim. -/
inductive Op where
  | connectOp (user_id : String) (info : UserInfo)
  | disconnectOp (user_id : String)
  | createChatRoomOp (doctor_id patient_id : String)
  | joinRoomOp (user_id room_id : String)
  | leaveRoomOp (user_id room_id : String)
deriving DecidableEq

/-- Applies one relay operation to the state (for `connect`, with the token
check succeeding and resolving to `info`, as in the source after
authentication). -/
def apply_op (fails : String → Bool) (m : Manager) : Op → Manager
  | .connectOp u info => (connect fails m u (some info)).1
  | .disconnectOp u => disconnect m u
  | .createChatRoomOp d p => (create_chat_room m d p).1
  | .joinRoomOp u r => join_room m u r
  | .leaveRoomOp u r => leave_room m u r

/-- Runs a sequence of relay operations from a state. -/
def run_ops (fails : String → Bool) : Manager → List Op → Manager
  | m, [] => m
  | m, op :: ops => run_ops fails (apply_op fails m op) ops

/-- Decides whether every participant of every room is currently registered. -/
def registry_covers_rooms (m : Manager) : Bool :=
  m.chat_rooms.all (fun p => p.2.all (fun u => m.active_connections.contains u))

/-- Restricts the room-populating operations to currently registered users
(the source never enforces this; it is the hypothesis the amended claim
needs). -/
def op_guard (m : Manager) : Op → Bool
  | .createChatRoomOp d p =>
    m.active_connections.contains d && m.active_connections.contains p
  | .joinRoomOp u _ => m.active_connections.contains u
  | _ => true

/-- Holds when every operation of the sequence satisfies its guard in the
state it actually executes in. -/
def guarded_run (fails : String → Bool) : Manager → List Op → Bool
  | _, [] => true
  | m, op :: ops => op_guard m op && guarded_run fails (apply_op fails m op) ops

/-- The propositional form of `registry_covers_rooms`. -/
def covers (m : Manager) : Prop :=
  ∀ p ∈ m.chat_rooms, ∀ u ∈ p.2, u ∈ m.active_connections

theorem covers_iff (m : Manager) : registry_covers_rooms m = true ↔ covers m := by
  unfold registry_covers_rooms covers
  simp [List.all_eq_true, contains_iff_mem]

theorem covers_disconnect (m : Manager) (u : String) (h : covers m) :
    covers (disconnect m u) := by
  intro p hp v hv
  obtain ⟨p0, hp0, _, hsub⟩ := disconnect_rooms_sub m u p hp
  have hv0 := hsub v hv
  rw [mem_disconnect_active]
  exact ⟨h p0 hp0 v hv0.1, hv0.2⟩

theorem covers_sp (fails : String → Bool) (m : Manager) (msg : Msg) (u : String)
    (h : covers m) : covers (send_personal_message fails m msg u).1 := by
  rcases sp_spec fails m msg u with ⟨_, _, he⟩ | ⟨_, _, he⟩ | ⟨_, he⟩ <;> rw [he]
  · exact h
  · exact covers_disconnect m u h
  · exact h

theorem covers_connect (fails : String → Bool) (m : Manager) (u : String)
    (info : UserInfo) (h : covers m) : covers (connect fails m u (some info)).1 := by
  unfold connect
  apply covers_sp
  intro p hp v hv
  have hva := h p hp v hv
  show v ∈ (if m.active_connections.contains u then m.active_connections
    else m.active_connections ++ [u])
  by_cases hc : m.active_connections.contains u = true
  · rw [if_pos hc]
    exact hva
  · rw [if_neg hc]
    exact List.mem_append_left _ hva

theorem mem_map_value_cases {α : Type} (k : String) (f : α → α) (d : List (String × α)) :
    ∀ q ∈ map_value k f d, ∃ p ∈ d, q = p ∨ q = (p.1, f p.2) := by
  intro q hq
  rw [map_value, List.mem_map] at hq
  obtain ⟨p, hp, hpe⟩ := hq
  refine ⟨p, hp, ?_⟩
  by_cases h : p.1 = k
  · right
    rw [← hpe, if_pos h]
  · left
    rw [← hpe, if_neg h]

theorem set_add_chain (base : List (String × List String)) (rid d p : String) :
    ∀ q ∈ map_value rid (set_add p) (map_value rid (set_add d) base),
      ∀ v ∈ q.2, (∃ q0 ∈ base, v ∈ q0.2) ∨ v = d ∨ v = p := by
  intro q hq v hv
  obtain ⟨q1, hq1, hc1⟩ := mem_map_value_cases rid (set_add p) _ q hq
  have hv1 : v ∈ q1.2 ∨ v = p := by
    rcases hc1 with rfl | rfl
    · exact Or.inl hv
    · exact (mem_set_add _ _ _).mp hv
  obtain ⟨q0, hq0, hc0⟩ := mem_map_value_cases rid (set_add d) base q1 hq1
  rcases hv1 with hv1 | rfl
  · have hv0 : v ∈ q0.2 ∨ v = d := by
      rcases hc0 with rfl | rfl
      · exact Or.inl hv1
      · exact (mem_set_add _ _ _).mp hv1
    rcases hv0 with hv0 | rfl
    · exact Or.inl ⟨q0, hq0, hv0⟩
    · exact Or.inr (Or.inl rfl)
  · exact Or.inr (Or.inr rfl)

theorem create_active (m : Manager) (d p : String) :
    (create_chat_room m d p).1.active_connections = m.active_connections := by
  simp only [create_chat_room]
  split <;> rfl

theorem covers_create (m : Manager) (d p : String) (h : covers m)
    (hd : d ∈ m.active_connections) (hp : p ∈ m.active_connections) :
    covers (create_chat_room m d p).1 := by
  intro q hq v hv
  rw [create_active]
  by_cases hk : contains_key (room_id_for d p) m.chat_rooms = true
  · have he : (create_chat_room m d p).1.chat_rooms =
        map_value (room_id_for d p) (set_add p)
          (map_value (room_id_for d p) (set_add d) m.chat_rooms) := by
      simp only [create_chat_room]
      rw [if_pos hk]
    rw [he] at hq
    rcases set_add_chain m.chat_rooms (room_id_for d p) d p q hq v hv with
      ⟨q0, hq0, hv0⟩ | rfl | rfl
    · exact h q0 hq0 v hv0
    · exact hd
    · exact hp
  · have he : (create_chat_room m d p).1.chat_rooms =
        map_value (room_id_for d p) (set_add p)
          (map_value (room_id_for d p) (set_add d)
            (m.chat_rooms ++ [(room_id_for d p, [])])) := by
      simp only [create_chat_room]
      rw [if_neg hk]
    rw [he] at hq
    rcases set_add_chain _ (room_id_for d p) d p q hq v hv with
      ⟨q0, hq0, hv0⟩ | rfl | rfl
    · rcases List.mem_append.mp hq0 with hq0 | hq0
      · exact h q0 hq0 v hv0
      · rw [List.mem_singleton] at hq0
        subst hq0
        cases hv0
    · exact hd
    · exact hp

theorem join_active (m : Manager) (u r : String) :
    (join_room m u r).active_connections = m.active_connections := by
  simp only [join_room]
  split <;> rfl

theorem covers_join (m : Manager) (u r : String) (h : covers m)
    (hu : u ∈ m.active_connections) : covers (join_room m u r) := by
  intro q hq v hv
  rw [join_active]
  by_cases hk : contains_key r m.chat_rooms = true
  · have he : (join_room m u r).chat_rooms = map_value r (set_add u) m.chat_rooms := by
      simp only [join_room]
      rw [if_pos hk]
    rw [he] at hq
    obtain ⟨q0, hq0, hc0⟩ := mem_map_value_cases r (set_add u) m.chat_rooms q hq
    have hv0 : v ∈ q0.2 ∨ v = u := by
      rcases hc0 with rfl | rfl
      · exact Or.inl hv
      · exact (mem_set_add _ _ _).mp hv
    rcases hv0 with hv0 | rfl
    · exact h q0 hq0 v hv0
    · exact hu
  · have he : (join_room m u r).chat_rooms =
        map_value r (set_add u) (m.chat_rooms ++ [(r, [])]) := by
      simp only [join_room]
      rw [if_neg hk]
    rw [he] at hq
    obtain ⟨q0, hq0, hc0⟩ := mem_map_value_cases r (set_add u) _ q hq
    have hv0 : v ∈ q0.2 ∨ v = u := by
      rcases hc0 with rfl | rfl
      · exact Or.inl hv
      · exact (mem_set_add _ _ _).mp hv
    rcases hv0 with hv0 | rfl
    · rcases List.mem_append.mp hq0 with hq0 | hq0
      · exact h q0 hq0 v hv0
      · rw [List.mem_singleton] at hq0
        subst hq0
        cases hv0
    · exact hu

theorem leave_active (m : Manager) (u r : String) :
    (leave_room m u r).active_connections = m.active_connections := by
  unfold leave_room
  split
  · rfl
  · split <;> rfl

theorem covers_leave (m : Manager) (u r : String) (h : covers m) :
    covers (leave_room m u r) := by
  intro q hq v hv
  rw [leave_active]
  cases hlk : m.chat_rooms.lookup r with
  | none =>
    have he : leave_room m u r = m := by
      unfold leave_room
      rw [hlk]
    rw [he] at hq
    exact h q hq v hv
  | some ps =>
    by_cases hc : ps.contains u = true
    · have he : (leave_room m u r).chat_rooms = map_value r (set_remove u) m.chat_rooms := by
        unfold leave_room
        rw [hlk]
        show (if ps.contains u = true then
            { m with chat_rooms := map_value r (set_remove u) m.chat_rooms }
          else m).chat_rooms = map_value r (set_remove u) m.chat_rooms
        rw [if_pos hc]
      rw [he] at hq
      obtain ⟨q0, hq0, hc0⟩ := mem_map_value_cases r (set_remove u) m.chat_rooms q hq
      have hv0 : v ∈ q0.2 := by
        rcases hc0 with rfl | rfl
        · exact hv
        · exact ((mem_set_remove _ _ _).mp hv).1
      exact h q0 hq0 v hv0
    · have he : leave_room m u r = m := by
        unfold leave_room
        rw [hlk]
        show (if ps.contains u = true then
            { m with chat_rooms := map_value r (set_remove u) m.chat_rooms }
          else m) = m
        rw [if_neg hc]
      rw [he] at hq
      exact h q hq v hv

theorem covers_step (fails : String → Bool) (m : Manager) (op : Op)
    (h : covers m) (hg : op_guard m op = true) : covers (apply_op fails m op) := by
  cases op with
  | connectOp u info => exact covers_connect fails m u info h
  | disconnectOp u => exact covers_disconnect m u h
  | createChatRoomOp d p =>
    simp only [op_guard, Bool.and_eq_true] at hg
    exact covers_create m d p h ((contains_iff_mem _ _).mp hg.1)
      ((contains_iff_mem _ _).mp hg.2)
  | joinRoomOp u r =>
    simp only [op_guard] at hg
    exact covers_join m u r h ((contains_iff_mem _ _).mp hg)
  | leaveRoomOp u r => exact covers_leave m u r h

/-- Refutes C3 as stated: `create_chat_room` never checks the registry, so a
single create operation from the empty initial state puts `d` into a room's
participant set while `d` is absent from the connection registry. -/
theorem unregistered_user_in_room :
    run_ops no_failure initial_manager [Op.createChatRoomOp "d" "p"] = m_room ∧
    ("d" ∈ m_room.active_connections → False) ∧
    (∃ q ∈ m_room.chat_rooms, "d" ∈ q.2) := by
  decide

/-- C3 amended: the invariant "a user absent from the connection registry
appears in no room's participant set" is preserved by every sequence of
connect / disconnect / create_chat_room / join_room / leave_room operations,
provided each create/join only names users registered at that moment — the
source itself never enforces that guard, and an unguarded create or join
breaks the invariant. -/
theorem registry_covers_rooms_invariant (fails : String → Bool) :
    ∀ (ops : List Op) (m : Manager),
      registry_covers_rooms m = true → guarded_run fails m ops = true →
      registry_covers_rooms (run_ops fails m ops) = true
  | [], _ => fun h _ => h
  | op :: ops, m => by
    intro h hg
    simp only [guarded_run, Bool.and_eq_true] at hg
    exact registry_covers_rooms_invariant fails ops (apply_op fails m op)
      ((covers_iff _).mpr (covers_step fails m op ((covers_iff m).mp h) hg.1)) hg.2

/-- A well-behaved demo run: both parties connect before pairing, then one
disconnects. -/
def ops_demo : List Op :=
  [Op.connectOp "d" { role := some "DOCTOR", full_name := some "D" },
   Op.connectOp "p" { role := some "PATIENT", full_name := some "P" },
   Op.createChatRoomOp "d" "p",
   Op.disconnectOp "d"]

theorem registry_covers_rooms_invariant_witness :
    registry_covers_rooms (run_ops no_failure initial_manager ops_demo) = true :=
  registry_covers_rooms_invariant no_failure ops_demo initial_manager
    (by decide) (by decide)
